import Mathlib

/-!
Verification of the MCP–Gemini orchestration client
(`client.py` and `server.py`) against its design specification.

The development shallowly embeds the Python source:

* `Json` models the JSON-like values Python dicts/lists/scalars carry.
* `cleanSchema` / `cleanDictVal` / `cleanListElems` embed
  `MCPGeminiClient._clean_schema_for_gemini` (client.py lines 63–80).
* `processQuery` embeds `MCPGeminiClient.process_query`
  (client.py lines 107–176), with the Gemini model and the MCP session
  abstracted as an environment of pure functions, and an event trace
  recording model calls and tool invocations in order.
* `calculate` embeds the `calculate` tool (server.py lines 23–31), with
  Python `eval` abstracted as a fallible evaluator.
* `mainRun` embeds the control flow of `main` (client.py lines 183–201).
-/

/-! ## Definitions: the shallow embedding of the source -/

/-- JSON-like values as passed around by the Python source: scalars
(`None`, booleans, numbers, strings), lists and insertion-ordered dicts
(modelled as association lists, preserving order). -/
inductive Json where
  | null : Json
  | bool (b : Bool) : Json
  | num (n : Int) : Json
  | str (s : String) : Json
  | arr (xs : List Json) : Json
  | obj (kvs : List (String × Json)) : Json
deriving Repr

mutual

/-- Embeds `_clean_schema_for_gemini` applied to a dict (client.py 63–80):
iterate over `schema.items()`, skip the key `"title"`, recurse into dict
values, map over list values recursing only into dict elements, copy
everything else. -/
def cleanSchema : List (String × Json) → List (String × Json)
  | [] => []
  | (k, v) :: rest =>
      if k = "title" then cleanSchema rest
      else (k, cleanDictVal v) :: cleanSchema rest

/-- How `_clean_schema_for_gemini` treats one dict value: `isinstance(value,
dict)` recurses, `isinstance(value, list)` maps over elements, anything else
is copied unchanged. -/
def cleanDictVal : Json → Json
  | .obj kvs => .obj (cleanSchema kvs)
  | .arr xs => .arr (cleanListElems xs)
  | j => j

/-- The list comprehension of client.py lines 74–77: an element that is a
dict is cleaned recursively, any other element (including a nested list)
passes through unchanged. -/
def cleanListElems : List Json → List Json
  | [] => []
  | .obj kvs :: rest => .obj (cleanSchema kvs) :: cleanListElems rest
  | j :: rest => j :: cleanListElems rest

end

/-- Calling `_clean_schema_for_gemini` on an arbitrary value: the method's
first action is `schema.items()`, so any non-dict argument raises
`AttributeError`; a dict is cleaned. -/
def cleanTop : Json → Except String Json
  | .obj kvs => .ok (.obj (cleanSchema kvs))
  | _ => .error "AttributeError"

mutual

/-- `true` iff the key `"title"` occurs somewhere in the value, at any
nesting depth, through objects and arrays alike. -/
def hasTitleKey : Json → Bool
  | .obj kvs => hasTitleKeyObj kvs
  | .arr xs => hasTitleKeyList xs
  | _ => false

def hasTitleKeyObj : List (String × Json) → Bool
  | [] => false
  | (k, v) :: rest => k = "title" || hasTitleKey v || hasTitleKeyObj rest

def hasTitleKeyList : List Json → Bool
  | [] => false
  | j :: rest => hasTitleKey j || hasTitleKeyList rest

end

/-- `true` iff the value is a scalar in the sense of the source's
type dispatch: neither a dict nor a list. -/
def isScalar : Json → Bool
  | .obj _ => false
  | .arr _ => false
  | _ => true

/-- `true` iff the value is a dict (`isinstance(value, dict)`): the only
kind of value `_clean_schema_for_gemini` can be applied to without its
`schema.items()` call raising. -/
def isDict : Json → Bool
  | .obj _ => true
  | _ => false

mutual

/-- `true` iff no `"title"` key occurs at any of the positions
`_clean_schema_for_gemini` actually traverses: keys of the object itself,
keys inside dict values (recursively), and keys inside dict elements of
list values.  Lists nested directly inside lists are not traversed. -/
def noTitleVisitedObj : List (String × Json) → Bool
  | [] => true
  | (k, v) :: rest => !(k == "title") && noTitleVisitedVal v && noTitleVisitedObj rest

def noTitleVisitedVal : Json → Bool
  | .obj kvs => noTitleVisitedObj kvs
  | .arr xs => noTitleVisitedList xs
  | _ => true

def noTitleVisitedList : List Json → Bool
  | [] => true
  | .obj kvs :: rest => noTitleVisitedObj kvs && noTitleVisitedList rest
  | _ :: rest => noTitleVisitedList rest

end

/-- A function-call request emitted by the model inside a reply part
(`part.function_call`, with `.name` and `.args`). -/
structure FC where
  name : String
  args : List (String × Json)

/-- One content part of a model reply: plain text or a function call.
A reply is modelled as the list of parts of its first candidate's content
(the only candidate `process_query` ever reads). -/
inductive ReplyPart where
  | text (s : String)
  | functionCall (fc : FC)

/-- The value returned by `session.call_tool`.  The MCP layer reports a
tool-side execution failure not by raising but by an `isError` result
whose `content` carries the error text; `process_query` reads
`result.content[0].text` in either case. -/
structure ToolReply where
  isError : Bool
  content : List String

/-- One turn of the `contents` list `process_query` builds: the initial
user turn, the model's own reply appended verbatim, or a
`function_response` turn `{name, {result: payload}}`. -/
inductive Content where
  | userText (s : String)
  | modelParts (ps : List ReplyPart)
  | functionResponse (name : String) (payload : String)

/-- Externally observable actions of one `process_query` run, in order:
each Gemini `generate_content_async` call (with the contents it was given)
and each MCP `call_tool` invocation (with name and arguments). -/
inductive Event where
  | modelCall (contents : List Content)
  | toolInvoke (name : String) (args : List (String × Json))

/-- The two external collaborators, abstracted as pure functions: the
Gemini model maps a contents list to the reply's parts (the adapted tool
declarations are fixed per query and folded into `generate`), and the MCP
session maps a tool name and arguments to a reply. -/
structure Env where
  generate : List Content → List ReplyPart
  callTool : String → List (String × Json) → ToolReply

/-- `hasattr(part, 'function_call') and part.function_call` -/
def partFunctionCall : ReplyPart → Option FC
  | .functionCall fc => some fc
  | .text _ => none

/-- The scan of client.py lines 126–131: collect the function calls of the
reply's parts, in part order. -/
def collectFunctionCalls (ps : List ReplyPart) : List FC :=
  ps.filterMap partFunctionCall

/-- `part.text` for a text part; a function-call part carries no text. -/
def partText : ReplyPart → Option String
  | .text s => some s
  | .functionCall _ => none

/-- `"".join(part.text for part in parts if hasattr(part, 'text'))`:
concatenation of the text parts, in order. -/
def joinTexts (ps : List ReplyPart) : String :=
  String.join (ps.filterMap partText)

/-- The tool loop of client.py lines 138–158: for each collected function
call in order, invoke the tool, read `result.content[0].text` (an
`IndexError` escapes if `content` is empty), and append one
`function_response` turn.  Returns the final contents (or the escaped
exception) together with the accumulated event trace. -/
def runTools (callTool : String → List (String × Json) → ToolReply) :
    List FC → List Content → List Event → (Except String (List Content)) × List Event
  | [], cs, evs => (.ok cs, evs)
  | fc :: rest, cs, evs =>
    let r := callTool fc.name fc.args
    let evs := evs ++ [.toolInvoke fc.name fc.args]
    match r.content.head? with
    | none => (.error "IndexError", evs)
    | some payload =>
        runTools callTool rest (cs ++ [.functionResponse fc.name payload]) evs

/-- Embeds `process_query` (client.py lines 107–176).  The run returns the
string the Python function returns (or the exception that escapes it) and
the ordered trace of model calls and tool invocations. -/
def processQuery (env : Env) (query : String) : (Except String String) × List Event :=
  let contents : List Content := [.userText query]
  let reply := env.generate contents
  let evs : List Event := [.modelCall contents]
  match collectFunctionCalls reply with
  | [] =>
      let t := joinTexts reply
      if t = "" then (.ok "No response or tool call from the model.", evs)
      else (.ok t, evs)
  | fc :: fcs =>
      let contents := contents ++ [.modelParts reply]
      match runTools env.callTool (fc :: fcs) contents evs with
      | (.error e, evs) => (.error e, evs)
      | (.ok contents, evs) =>
          let finalReply := env.generate contents
          let evs := evs ++ [.modelCall contents]
          if finalReply.isEmpty then
            (.ok "No discernable text response after tool execution.", evs)
          else (.ok (joinTexts finalReply), evs)

/-- The `function_response` turn appended for one function call. -/
def frTurn (callTool : String → List (String × Json) → ToolReply) (fc : FC) : Content :=
  .functionResponse fc.name ((callTool fc.name fc.args).content.headD "")

/-- The invocation event recorded for one function call. -/
def invokeEv (fc : FC) : Event :=
  .toolInvoke fc.name fc.args

/-- The first model reply of a query: what `generate_content_async` at
client.py line 120 returns for the initial contents. -/
def firstReply (env : Env) (q : String) : List ReplyPart :=
  env.generate [.userText q]

/-- The function calls collected from the first reply, in part order. -/
def firstCalls (env : Env) (q : String) : List FC :=
  collectFunctionCalls (firstReply env q)

/-- The contents list handed to the followup model call (client.py line
161): the user turn, the model's own reply, then one `function_response`
turn per collected call, in call order. -/
def followupContents (env : Env) (q : String) : List Content :=
  [.userText q, .modelParts (firstReply env q)] ++
    (firstCalls env q).map (frTurn env.callTool)

/-- `true` on a Gemini `generate_content_async` event. -/
def isModelCall : Event → Bool
  | .modelCall _ => true
  | .toolInvoke _ _ => false

/-- `true` on an MCP `call_tool` event. -/
def isToolInvoke : Event → Bool
  | .toolInvoke _ _ => true
  | .modelCall _ => false

/-- The number of Gemini calls a trace contains. -/
def countModelCalls (evs : List Event) : Nat :=
  (evs.filter isModelCall).length

/-- Drops everything up to and including the first model-call event. -/
def dropThroughModelCall : List Event → List Event
  | [] => []
  | .modelCall _ :: rest => rest
  | .toolInvoke _ _ :: rest => dropThroughModelCall rest

/-- The events strictly after the second model call of a trace. -/
def afterSecondModelCall (evs : List Event) : List Event :=
  dropThroughModelCall (dropThroughModelCall evs)

/-- Embeds `calculate`: the `eval` of the expression over the math
namespace is abstracted as a fallible evaluator `evalExpr` returning
either the displayed value (`str(result)`, interpolated by the f-string)
or the exception text (`str(e)`).  The try/except folds both into a plain
string, so the function itself never raises. -/
def calculate (evalExpr : String → Except String String) (expression : String) : String :=
  match evalExpr expression with
  | .ok v => "The result is: " ++ v
  | .error e => "Error evaluating expression: " ++ e

/-- Observable steps of `main`: connecting to the server, one
`process_query` per demo query, and the final `cleanup()` that closes the
exit stack (releasing the stdio transport and the server process). -/
inductive MainEvent where
  | connectEv : MainEvent
  | queryEv (q : String) : MainEvent
  | cleanupEv : MainEvent
deriving Repr, DecidableEq

/-- The demo query list of client.py lines 188–193. -/
def demoQueries : List String :=
  ["What\x27s the weather like in London?",
   "What is 123 * 45 + 9?",
   "What time is it in Tokyo?",
   "Tell me a fun fact about giraffes."]

/-- The query loop of client.py lines 195–199: each `process_query` may
raise (`fails q = true`); a raise propagates out of the plain `for` loop
immediately.  Returns whether the loop completed and the trace so far. -/
def runQueries (fails : String → Bool) : List String → List MainEvent → Bool × List MainEvent
  | [], evs => (true, evs)
  | q :: rest, evs =>
      if fails q then (false, evs ++ [.queryEv q])
      else runQueries fails rest (evs ++ [.queryEv q])

/-- Embeds the control flow of `main`: `connect_to_server`, the query
loop, then `await client.cleanup()` — written with no try/finally and no
`async with`, so the cleanup line is reached only when connect and every
query completed without raising.  `connectFails` models
`connect_to_server` raising (transport or handshake failure), `fails q`
models `process_query q` raising. -/
def mainRun (connectFails : Bool) (fails : String → Bool) : Bool × List MainEvent :=
  if connectFails then (false, [.connectEv])
  else
    match runQueries fails demoQueries [.connectEv] with
    | (true, evs) => (true, evs ++ [.cleanupEv])
    | (false, evs) => (false, evs)

/-- Environment for the tool-path witnesses: the first reply requests two
function calls, the second of which the endpoint fails; the followup
reply is plain text. -/
def wEnvTools : Env where
  generate := fun cs =>
    if cs.length == 1 then
      [.text "Let me check.",
       .functionCall ⟨"get_weather", [("city", .str "London")]⟩,
       .functionCall ⟨"calculate", [("expression", .str "1/0")]⟩]
    else [.text "It is cloudy in London, and the division failed."]
  callTool := fun n _ =>
    if n == "get_weather" then ⟨false, ["It is cloudy and 18°C in London."]⟩
    else ⟨true, ["Error executing tool calculate: division by zero"]⟩

/-- Environment for the no-tool witness: the first reply is plain text
and the session is never consulted. -/
def wEnvNoTool : Env where
  generate := fun _ => [.text "Giraffes hum to each other at night."]
  callTool := fun _ _ => ⟨false, []⟩

/-- How one array element is treated: an object is cleaned, anything else
(including a nested array) is passed through unchanged. -/
def cleanArrElem : Json → Json
  | .obj kvs => .obj (cleanSchema kvs)
  | j => j

/-- Environment for the C8 counterexample: the followup reply consists of
a single function-call part and no text part. -/
def wEnvFnFollowup : Env where
  generate := fun cs =>
    if cs.length == 1 then
      [.functionCall ⟨"get_time", [("city", .str "Tokyo")]⟩]
    else [.functionCall ⟨"get_time", [("city", .str "Paris")]⟩]
  callTool := fun _ _ => ⟨false, ["The local time in Tokyo is 12:00"]⟩

/-! ## Theorems -/

mutual

theorem cleanSchema_noTitle (kvs : List (String × Json)) :
    noTitleVisitedObj (cleanSchema kvs) = true := by
  match kvs with
  | [] => simp [cleanSchema, noTitleVisitedObj]
  | (k, v) :: rest =>
    by_cases hk : k = "title"
    · simpa [cleanSchema, hk] using cleanSchema_noTitle rest
    · simp [cleanSchema, hk, noTitleVisitedObj, cleanSchema_noTitle rest,
        cleanDictVal_noTitle v]

theorem cleanDictVal_noTitle (j : Json) :
    noTitleVisitedVal (cleanDictVal j) = true := by
  match j with
  | .obj kvs => simpa [cleanDictVal, noTitleVisitedVal] using cleanSchema_noTitle kvs
  | .arr xs => simpa [cleanDictVal, noTitleVisitedVal] using cleanListElems_noTitle xs
  | .null => simp [cleanDictVal, noTitleVisitedVal]
  | .bool b => simp [cleanDictVal, noTitleVisitedVal]
  | .num n => simp [cleanDictVal, noTitleVisitedVal]
  | .str s => simp [cleanDictVal, noTitleVisitedVal]

theorem cleanListElems_noTitle (xs : List Json) :
    noTitleVisitedList (cleanListElems xs) = true := by
  match xs with
  | [] => simp [cleanListElems, noTitleVisitedList]
  | .obj kvs :: rest =>
    simp [cleanListElems, noTitleVisitedList, cleanSchema_noTitle kvs,
      cleanListElems_noTitle rest]
  | .arr ys :: rest =>
    simpa [cleanListElems, noTitleVisitedList] using cleanListElems_noTitle rest
  | .null :: rest =>
    simpa [cleanListElems, noTitleVisitedList] using cleanListElems_noTitle rest
  | .bool b :: rest =>
    simpa [cleanListElems, noTitleVisitedList] using cleanListElems_noTitle rest
  | .num n :: rest =>
    simpa [cleanListElems, noTitleVisitedList] using cleanListElems_noTitle rest
  | .str s :: rest =>
    simpa [cleanListElems, noTitleVisitedList] using cleanListElems_noTitle rest

end

/-- Top-level sibling keys survive in order; only `"title"` entries are
dropped.  Because `cleanSchema` is applied recursively to every traversed
object, this key-preservation holds at every traversed nesting level. -/
theorem cleanSchema_keys (kvs : List (String × Json)) :
    (cleanSchema kvs).map Prod.fst
      = (kvs.map Prod.fst).filter (fun k => !(k == "title")) := by
  induction kvs with
  | nil => simp [cleanSchema]
  | cons kv rest ih =>
    obtain ⟨k, v⟩ := kv
    by_cases hk : k = "title"
    · simp [cleanSchema, hk, ih]
    · simp [cleanSchema, hk, ih]

/-- Array length (hence element ordering and positions) is preserved. -/
theorem cleanListElems_length (xs : List Json) :
    (cleanListElems xs).length = xs.length := by
  match xs with
  | [] => simp [cleanListElems]
  | .obj kvs :: rest => simp [cleanListElems, cleanListElems_length rest]
  | .arr ys :: rest => simp [cleanListElems, cleanListElems_length rest]
  | .null :: rest => simp [cleanListElems, cleanListElems_length rest]
  | .bool b :: rest => simp [cleanListElems, cleanListElems_length rest]
  | .num n :: rest => simp [cleanListElems, cleanListElems_length rest]
  | .str s :: rest => simp [cleanListElems, cleanListElems_length rest]

mutual

theorem cleanSchema_idem (kvs : List (String × Json)) :
    cleanSchema (cleanSchema kvs) = cleanSchema kvs := by
  match kvs with
  | [] => simp [cleanSchema]
  | (k, v) :: rest =>
    by_cases hk : k = "title"
    · simp [cleanSchema, hk, cleanSchema_idem rest]
    · simp [cleanSchema, hk, cleanSchema_idem rest, cleanDictVal_idem v]

theorem cleanDictVal_idem (j : Json) :
    cleanDictVal (cleanDictVal j) = cleanDictVal j := by
  match j with
  | .obj kvs => simp [cleanDictVal, cleanSchema_idem kvs]
  | .arr xs => simp [cleanDictVal, cleanListElems_idem xs]
  | .null => simp [cleanDictVal]
  | .bool b => simp [cleanDictVal]
  | .num n => simp [cleanDictVal]
  | .str s => simp [cleanDictVal]

theorem cleanListElems_idem (xs : List Json) :
    cleanListElems (cleanListElems xs) = cleanListElems xs := by
  match xs with
  | [] => simp [cleanListElems]
  | .obj kvs :: rest =>
    simp [cleanListElems, cleanSchema_idem kvs, cleanListElems_idem rest]
  | .arr ys :: rest => simp [cleanListElems, cleanListElems_idem rest]
  | .null :: rest => simp [cleanListElems, cleanListElems_idem rest]
  | .bool b :: rest => simp [cleanListElems, cleanListElems_idem rest]
  | .num n :: rest => simp [cleanListElems, cleanListElems_idem rest]
  | .str s :: rest => simp [cleanListElems, cleanListElems_idem rest]

end

theorem runTools_ok (callTool : String → List (String × Json) → ToolReply)
    (fcs : List FC) (cs : List Content) (evs : List Event)
    (h : ∀ fc ∈ fcs, (callTool fc.name fc.args).content ≠ []) :
    runTools callTool fcs cs evs =
      (.ok (cs ++ fcs.map (frTurn callTool)), evs ++ fcs.map invokeEv) := by
  induction fcs generalizing cs evs with
  | nil => simp [runTools]
  | cons fc rest ih =>
    have hfc : (callTool fc.name fc.args).content ≠ [] := h fc (by simp)
    match hh : (callTool fc.name fc.args).content with
    | [] => exact absurd hh hfc
    | p :: ps =>
      have hrest : ∀ g ∈ rest, (callTool g.name g.args).content ≠ [] :=
        fun g hg => h g (by simp [hg])
      simp only [runTools, hh, List.head?]
      rw [ih _ _ hrest]
      simp [frTurn, invokeEv, hh]

theorem isModelCall_eq_false {e : Event} (h : isToolInvoke e = true) :
    isModelCall e = false := by
  cases e <;> simp_all [isToolInvoke, isModelCall]

theorem dropThroughModelCall_invokes (invs l : List Event)
    (h : ∀ e ∈ invs, isToolInvoke e = true) :
    dropThroughModelCall (invs ++ l) = dropThroughModelCall l := by
  induction invs with
  | nil => simp
  | cons e rest ih =>
    match e with
    | .modelCall c =>
      have := h _ (List.mem_cons_self _ _)
      simp [isToolInvoke] at this
    | .toolInvoke n a =>
      simp only [List.cons_append, dropThroughModelCall]
      exact ih (fun x hx => h x (List.mem_cons_of_mem _ hx))

theorem filter_modelCall_invokes (invs : List Event)
    (h : ∀ e ∈ invs, isToolInvoke e = true) :
    invs.filter isModelCall = [] := by
  induction invs with
  | nil => simp
  | cons e rest ih =>
    have he : isModelCall e = false := isModelCall_eq_false (h _ (List.mem_cons_self _ _))
    simp [List.filter, he, ih (fun x hx => h x (List.mem_cons_of_mem _ hx))]

theorem runTools_trace (callTool : String → List (String × Json) → ToolReply)
    (fcs : List FC) (cs : List Content) (evs : List Event) :
    ∃ invs, (runTools callTool fcs cs evs).2 = evs ++ invs ∧
      ∀ e ∈ invs, isToolInvoke e = true := by
  induction fcs generalizing cs evs with
  | nil => exact ⟨[], by simp [runTools]⟩
  | cons fc rest ih =>
    cases hh : (callTool fc.name fc.args).content.head? with
    | none =>
      refine ⟨[.toolInvoke fc.name fc.args], ?_, ?_⟩
      · simp [runTools, hh]
      · intro e he
        simp only [List.mem_singleton] at he
        simp [he, isToolInvoke]
    | some p =>
      obtain ⟨invs, h1, h2⟩ :=
        ih (cs ++ [.functionResponse fc.name p]) (evs ++ [.toolInvoke fc.name fc.args])
      refine ⟨.toolInvoke fc.name fc.args :: invs, ?_, ?_⟩
      · simp only [runTools, hh]
        rw [h1]
        simp
      · intro e he
        rcases List.mem_cons.mp he with he | he
        · simp [he, isToolInvoke]
        · exact h2 e he

/-- `process_query` when the first reply carries no function call
(client.py lines 126–131 collect nothing, lines 172–176 run): one model
call, no tool invocation, output the reply's text or, if the text is
empty, the fixed fallback string. -/
theorem processQuery_noTool (env : Env) (q : String)
    (h : firstCalls env q = []) :
    processQuery env q =
      (Except.ok (if joinTexts (firstReply env q) = ""
          then "No response or tool call from the model."
          else joinTexts (firstReply env q)),
       [Event.modelCall [Content.userText q]]) := by
  simp only [firstCalls, firstReply] at h
  simp only [processQuery, h, firstReply]
  split <;> rfl

/-- `process_query` when the first reply carries function calls and every
tool reply has at least one content item (as the MCP layer guarantees for
both success and error results): the tools run in order, one
`function_response` turn is appended per call, the followup model call is
issued with the full contents, and the output is the followup's joined
text or, with an empty followup parts list, the fixed fallback string. -/
theorem processQuery_tool (env : Env) (q : String)
    (h : firstCalls env q ≠ [])
    (hc : ∀ fc ∈ firstCalls env q, (env.callTool fc.name fc.args).content ≠ []) :
    processQuery env q =
      (Except.ok (if (env.generate (followupContents env q)).isEmpty
          then "No discernable text response after tool execution."
          else joinTexts (env.generate (followupContents env q))),
       Event.modelCall [Content.userText q] ::
         ((firstCalls env q).map invokeEv ++
          [Event.modelCall (followupContents env q)])) := by
  cases hfcs : firstCalls env q with
  | nil => exact absurd hfcs h
  | cons fc rest =>
    have hc2 : ∀ g ∈ fc :: rest, (env.callTool g.name g.args).content ≠ [] := by
      intro g hg
      exact hc g (by rw [hfcs]; exact hg)
    have hfcs2 : collectFunctionCalls (env.generate [Content.userText q]) = fc :: rest := by
      simpa [firstCalls, firstReply] using hfcs
    simp only [processQuery, hfcs2]
    rw [runTools_ok env.callTool (fc :: rest) _ _ hc2]
    simp only [followupContents, firstCalls, firstReply, hfcs2]
    simp only [List.map_cons, List.cons_append, List.nil_append, List.singleton_append]
    split <;> rfl

theorem runQueries_ok (fails : String → Bool) (qs : List String) (evs : List MainEvent)
    (h : ∀ q ∈ qs, fails q = false) :
    runQueries fails qs evs = (true, evs ++ qs.map MainEvent.queryEv) := by
  induction qs generalizing evs with
  | nil => simp [runQueries]
  | cons q rest ih =>
    have hq : fails q = false := h q (List.mem_cons_self _ _)
    rw [runQueries, hq]
    simp only [Bool.false_eq_true, if_false]
    rw [ih _ (fun x hx => h x (List.mem_cons_of_mem _ hx))]
    simp

theorem runQueries_fail (fails : String → Bool) (qs : List String) (evs : List MainEvent)
    (h : ¬ ∀ q ∈ qs, fails q = false) :
    (runQueries fails qs evs).1 = false := by
  induction qs generalizing evs with
  | nil => simp at h
  | cons q rest ih =>
    cases hq : fails q with
    | true => simp [runQueries, hq]
    | false =>
      have hrest : ¬ ∀ x ∈ rest, fails x = false := by
        intro hall
        exact h (fun x hx => by
          rcases List.mem_cons.mp hx with hx | hx
          · rw [hx]; exact hq
          · exact hall x hx)
      simp only [runQueries, hq, Bool.false_eq_true, if_false]
      exact ih _ hrest

theorem runQueries_no_cleanup (fails : String → Bool) (qs : List String)
    (evs : List MainEvent) (h : MainEvent.cleanupEv ∉ evs) :
    MainEvent.cleanupEv ∉ (runQueries fails qs evs).2 := by
  induction qs generalizing evs with
  | nil => simpa [runQueries] using h
  | cons q rest ih =>
    have hne : MainEvent.cleanupEv ∉ evs ++ [MainEvent.queryEv q] := by
      intro hmem
      rcases List.mem_append.mp hmem with hmem | hmem
      · exact h hmem
      · simp at hmem
    cases hq : fails q with
    | true =>
      simp only [runQueries, hq, if_true]
      exact hne
    | false =>
      simp only [runQueries, hq, Bool.false_eq_true, if_false]
      exact ih _ hne

theorem trace_shape_bounds (c1 : List Content) (invs tail : List Event)
    (h : ∀ e ∈ invs, isToolInvoke e = true)
    (htail : tail = [] ∨ ∃ c2, tail = [Event.modelCall c2]) :
    countModelCalls (Event.modelCall c1 :: (invs ++ tail)) ≤ 2 ∧
      afterSecondModelCall (Event.modelCall c1 :: (invs ++ tail)) = [] := by
  have hdrop : dropThroughModelCall (invs ++ tail) = dropThroughModelCall tail :=
    dropThroughModelCall_invokes invs tail h
  constructor
  · rcases htail with rfl | ⟨c2, rfl⟩ <;>
      simp [countModelCalls, List.filter_append, List.filter, isModelCall,
        filter_modelCall_invokes invs h]
  · have hdrop0 : dropThroughModelCall invs = [] := by
      have h0 := dropThroughModelCall_invokes invs [] h
      simpa [dropThroughModelCall] using h0
    rcases htail with rfl | ⟨c2, rfl⟩
    · simpa [afterSecondModelCall, dropThroughModelCall] using hdrop0
    · simp [afterSecondModelCall, dropThroughModelCall, hdrop]

theorem isEmpty_false_ne_nil {α : Type} {l : List α} (h : l.isEmpty = false) :
    l ≠ [] := by
  cases l <;> simp_all

theorem all_content_ne (env : Env) (fcs : List FC)
    (hc : fcs.all (fun fc => !(env.callTool fc.name fc.args).content.isEmpty) = true) :
    ∀ fc ∈ fcs, (env.callTool fc.name fc.args).content ≠ [] := by
  intro fc hfc
  have h := List.all_eq_true.mp hc fc hfc
  cases hcc : (env.callTool fc.name fc.args).content with
  | nil => rw [hcc] at h; simp at h
  | cons a l => simp

/-- C2: for every query, `process_query` issues at most two model calls,
and nothing at all — in particular no tool invocation — happens after the
second model call, so function-call requests present in the followup
reply are never executed.  This covers every path of the function: the
direct-text path (one model call), the tool path (two model calls), and
the path on which reading an empty tool result raises. -/
theorem claim_C2_at_most_two_model_calls (env : Env) (q : String) :
    countModelCalls (processQuery env q).2 ≤ 2 ∧
      afterSecondModelCall (processQuery env q).2 = [] := by
  cases hfcs : collectFunctionCalls (env.generate [Content.userText q]) with
  | nil =>
    have hpq := processQuery_noTool env q (by simpa [firstCalls, firstReply] using hfcs)
    rw [hpq]
    constructor
    · simp [countModelCalls, List.filter, isModelCall]
    · simp [afterSecondModelCall, dropThroughModelCall]
  | cons fc rest =>
    obtain ⟨invs, h1, h2⟩ := runTools_trace env.callTool (fc :: rest)
      ([Content.userText q] ++ [Content.modelParts (env.generate [Content.userText q])])
      [Event.modelCall [Content.userText q]]
    simp only [processQuery, hfcs]
    split
    next e evs2 heq =>
      rw [heq] at h1
      simp only at h1
      subst h1
      simpa using trace_shape_bounds [Content.userText q] invs [] h2 (Or.inl rfl)
    next cs2 evs2 heq =>
      rw [heq] at h1
      simp only at h1
      subst h1
      split
      · simpa using trace_shape_bounds [Content.userText q] invs
          [Event.modelCall cs2] h2 (Or.inr ⟨cs2, rfl⟩)
      · simpa using trace_shape_bounds [Content.userText q] invs
          [Event.modelCall cs2] h2 (Or.inr ⟨cs2, rfl⟩)

/-- C1: for a query whose first model reply requests N ≥ 1 function calls
(and every tool reply carries at least one content item, as the MCP layer
guarantees for success and error results alike), `process_query` performs
exactly the N invocations, sequentially, in the order the calls appeared
in the reply (the trace lists them between the two model calls), and the
contents handed to the single followup model call extend the user and
model turns by exactly one `function_response` turn per call, in call
order, each carrying the corresponding call's name. -/
theorem claim_C1_tool_calls_in_order (env : Env) (q : String)
    (h : (firstCalls env q).isEmpty = false)
    (hc : (firstCalls env q).all
      (fun fc => !(env.callTool fc.name fc.args).content.isEmpty) = true) :
    ∃ out : String,
      processQuery env q =
        (Except.ok out,
         Event.modelCall [Content.userText q] ::
           ((firstCalls env q).map invokeEv ++
            [Event.modelCall (followupContents env q)])) ∧
      followupContents env q =
        [Content.userText q, Content.modelParts (firstReply env q)] ++
          (firstCalls env q).map
            (fun fc => Content.functionResponse fc.name
              ((env.callTool fc.name fc.args).content.headD "")) := by
  refine ⟨_, processQuery_tool env q (isEmpty_false_ne_nil h)
    (all_content_ne env _ hc), ?_⟩
  rfl

/-- Witness for C1 at `wEnvTools`: both hypotheses hold and the conclusion
follows by applying the theorem there. -/
theorem claim_C1_witness :
    (firstCalls wEnvTools "What is the weather?").isEmpty = false ∧
    (firstCalls wEnvTools "What is the weather?").all
      (fun fc => !(wEnvTools.callTool fc.name fc.args).content.isEmpty) = true ∧
    ∃ out : String,
      processQuery wEnvTools "What is the weather?" =
        (Except.ok out,
         Event.modelCall [Content.userText "What is the weather?"] ::
           ((firstCalls wEnvTools "What is the weather?").map invokeEv ++
            [Event.modelCall (followupContents wEnvTools "What is the weather?")])) ∧
      followupContents wEnvTools "What is the weather?" =
        [Content.userText "What is the weather?",
         Content.modelParts (firstReply wEnvTools "What is the weather?")] ++
          (firstCalls wEnvTools "What is the weather?").map
            (fun fc => Content.functionResponse fc.name
              ((wEnvTools.callTool fc.name fc.args).content.headD "")) :=
  ⟨rfl, rfl, claim_C1_tool_calls_in_order wEnvTools "What is the weather?" rfl rfl⟩

/-- C3: for a query whose first model reply contains no function-call
part, `process_query` performs zero tool invocations and returns the
reply's text (the concatenation of its text parts); when that text is
empty — in particular when the reply carries no text and no function
call — it returns the fixed fallback message of client.py line 176
instead of raising. -/
theorem claim_C3_no_tool_direct_text (env : Env) (q : String)
    (h : firstCalls env q = []) :
    processQuery env q =
      (Except.ok (if joinTexts (firstReply env q) = ""
          then "No response or tool call from the model."
          else joinTexts (firstReply env q)),
       [Event.modelCall [Content.userText q]]) ∧
    ((processQuery env q).2.filter isToolInvoke).length = 0 := by
  have hpq := processQuery_noTool env q h
  refine ⟨hpq, ?_⟩
  rw [hpq]
  simp [isToolInvoke]

/-- Witness for C3 at `wEnvNoTool`. -/
theorem claim_C3_witness :
    firstCalls wEnvNoTool "Tell me a fun fact about giraffes." = [] ∧
    (processQuery wEnvNoTool "Tell me a fun fact about giraffes." =
      (Except.ok (if joinTexts (firstReply wEnvNoTool "Tell me a fun fact about giraffes.") = ""
          then "No response or tool call from the model."
          else joinTexts (firstReply wEnvNoTool "Tell me a fun fact about giraffes.")),
       [Event.modelCall [Content.userText "Tell me a fun fact about giraffes."]]) ∧
     ((processQuery wEnvNoTool "Tell me a fun fact about giraffes.").2.filter
        isToolInvoke).length = 0) :=
  ⟨rfl, claim_C3_no_tool_direct_text wEnvNoTool "Tell me a fun fact about giraffes." rfl⟩

/-- C4: a requested tool call whose invocation fails at the endpoint does
not make the loop raise: the `isError` reply's text (read off
`result.content[0].text` exactly as for a success) becomes the payload of
that call's `function_response` turn — a non-empty error description —
all requested calls are still invoked, and the followup model call is
still issued.  `k` indexes the failing call among the collected calls. -/
theorem claim_C4_tool_failure_recovered (env : Env) (q : String) (k : Nat)
    (hk : k < (firstCalls env q).length)
    (hc : (firstCalls env q).all
      (fun fc => !(env.callTool fc.name fc.args).content.isEmpty) = true)
    (hfail : (env.callTool ((firstCalls env q).get ⟨k, hk⟩).name
        ((firstCalls env q).get ⟨k, hk⟩).args).isError = true)
    (hmsg : (env.callTool ((firstCalls env q).get ⟨k, hk⟩).name
        ((firstCalls env q).get ⟨k, hk⟩).args).content.headD "" ≠ "") :
    ∃ out : String,
      processQuery env q =
        (Except.ok out,
         Event.modelCall [Content.userText q] ::
           ((firstCalls env q).map invokeEv ++
            [Event.modelCall (followupContents env q)])) ∧
      (followupContents env q)[2 + k]? =
        some (Content.functionResponse ((firstCalls env q).get ⟨k, hk⟩).name
          ((env.callTool ((firstCalls env q).get ⟨k, hk⟩).name
            ((firstCalls env q).get ⟨k, hk⟩).args).content.headD "")) ∧
      (env.callTool ((firstCalls env q).get ⟨k, hk⟩).name
        ((firstCalls env q).get ⟨k, hk⟩).args).content.headD "" ≠ "" := by
  have hne : firstCalls env q ≠ [] := by
    intro h0
    rw [h0] at hk
    simp at hk
  refine ⟨_, processQuery_tool env q hne (all_content_ne env _ hc), ?_, hmsg⟩
  have h2k : 2 + k =
      ([Content.userText q, Content.modelParts (firstReply env q)] : List Content).length + k := by
    simp
  rw [followupContents, h2k, List.getElem?_append_right (by simp)]
  simp [List.getElem?_map, List.getElem?_eq_getElem hk, frTurn]

/-- Witness for C4 at `wEnvTools`, whose second requested call (index 1,
the `calculate` call) fails at the endpoint with a non-empty message. -/
theorem claim_C4_witness :
    1 < (firstCalls wEnvTools "What is 1/0?").length ∧
    (firstCalls wEnvTools "What is 1/0?").all
      (fun fc => !(wEnvTools.callTool fc.name fc.args).content.isEmpty) = true ∧
    (wEnvTools.callTool ((firstCalls wEnvTools "What is 1/0?").get ⟨1, by decide⟩).name
        ((firstCalls wEnvTools "What is 1/0?").get ⟨1, by decide⟩).args).isError = true ∧
    ∃ out : String,
      processQuery wEnvTools "What is 1/0?" =
        (Except.ok out,
         Event.modelCall [Content.userText "What is 1/0?"] ::
           ((firstCalls wEnvTools "What is 1/0?").map invokeEv ++
            [Event.modelCall (followupContents wEnvTools "What is 1/0?")])) ∧
      (followupContents wEnvTools "What is 1/0?")[2 + 1]? =
        some (Content.functionResponse
          ((firstCalls wEnvTools "What is 1/0?").get ⟨1, by decide⟩).name
          ((wEnvTools.callTool ((firstCalls wEnvTools "What is 1/0?").get ⟨1, by decide⟩).name
            ((firstCalls wEnvTools "What is 1/0?").get ⟨1, by decide⟩).args).content.headD "")) ∧
      (wEnvTools.callTool ((firstCalls wEnvTools "What is 1/0?").get ⟨1, by decide⟩).name
        ((firstCalls wEnvTools "What is 1/0?").get ⟨1, by decide⟩).args).content.headD "" ≠ "" :=
  ⟨by decide, rfl, rfl,
   claim_C4_tool_failure_recovered wEnvTools "What is 1/0?" 1 (by decide) rfl rfl
     (by decide)⟩

theorem cleanListElems_eq_map (xs : List Json) :
    cleanListElems xs = xs.map cleanArrElem := by
  match xs with
  | [] => simp [cleanListElems]
  | .obj kvs :: rest => simp [cleanListElems, cleanArrElem, cleanListElems_eq_map rest]
  | .arr ys :: rest => simp [cleanListElems, cleanArrElem, cleanListElems_eq_map rest]
  | .null :: rest => simp [cleanListElems, cleanArrElem, cleanListElems_eq_map rest]
  | .bool b :: rest => simp [cleanListElems, cleanArrElem, cleanListElems_eq_map rest]
  | .num n :: rest => simp [cleanListElems, cleanArrElem, cleanListElems_eq_map rest]
  | .str s :: rest => simp [cleanListElems, cleanArrElem, cleanListElems_eq_map rest]

/-- C5 counterexample: the claim says `clean` removes `"title"` at every
nesting depth through objects and arrays alike, but an object inside an
array that is itself inside an array is passed through unchanged (the list
comprehension recurses only into dict elements), so its `"title"` key
survives cleaning. -/
theorem claim_C5_counterexample :
    hasTitleKeyObj (cleanSchema
      [("items", Json.arr [Json.arr [Json.obj [("title", Json.str "T")]]])]) = true := by
  decide

/-- C5 as amended: `clean` removes every `"title"` key at every position
it traverses — keys of the object, object values at any depth, and object
elements of arrays that are dict values — preserving all sibling keys in
their order, and mapping arrays element-wise in place (objects cleaned,
all other elements, including nested arrays, unchanged), so array length
and element order are preserved.  Arrays nested directly inside arrays
are not traversed. -/
theorem claim_C5_amended_title_removal :
    (∀ kvs : List (String × Json), noTitleVisitedObj (cleanSchema kvs) = true) ∧
    (∀ kvs : List (String × Json),
      (cleanSchema kvs).map Prod.fst
        = (kvs.map Prod.fst).filter (fun k => !(k == "title"))) ∧
    (∀ xs : List Json, cleanListElems xs = xs.map cleanArrElem) ∧
    (∀ xs : List Json, (cleanListElems xs).length = xs.length) :=
  ⟨cleanSchema_noTitle, cleanSchema_keys, cleanListElems_eq_map, cleanListElems_length⟩

/-- C6: `clean` is idempotent, on dicts (the entry point) and on every
dict value; as a Lean function it is by construction deterministic and
side-effect free, mirroring that the Python builds a fresh dict and never
mutates its argument. -/
theorem claim_C6_clean_idempotent :
    (∀ kvs : List (String × Json), cleanSchema (cleanSchema kvs) = cleanSchema kvs) ∧
    (∀ j : Json, cleanDictVal (cleanDictVal j) = cleanDictVal j) :=
  ⟨cleanSchema_idem, cleanDictVal_idem⟩

/-- C7 counterexample: the claim says `clean` accepts an arbitrary
JSON-like value at the top level and returns scalars unchanged, but the
method immediately calls `schema.items()`, so a scalar top-level argument
raises `AttributeError` instead of being returned. -/
theorem claim_C7_counterexample :
    cleanTop (Json.num 3) = Except.error "AttributeError" := rfl

/-- C7 as amended: the top level must be a dict — every non-dict (scalar
or array) top-level argument raises `AttributeError` — while scalars
nested as dict values pass through unchanged, non-dict elements of arrays
(arrays map element-wise through `cleanArrElem`) pass through unchanged,
and a dict argument is cleaned. -/
theorem claim_C7_amended_top_level_must_be_dict :
    (∀ j : Json, isDict j = false → cleanTop j = Except.error "AttributeError") ∧
    (∀ j : Json, isScalar j = true → cleanDictVal j = j) ∧
    (∀ j : Json, isDict j = false → cleanArrElem j = j) ∧
    (∀ xs : List Json, cleanListElems xs = xs.map cleanArrElem) ∧
    (∀ kvs : List (String × Json),
      cleanTop (Json.obj kvs) = Except.ok (Json.obj (cleanSchema kvs))) := by
  refine ⟨?_, ?_, ?_, cleanListElems_eq_map, fun kvs => rfl⟩ <;>
    intro j hj <;> cases j <;>
      simp_all [isDict, isScalar, cleanTop, cleanDictVal, cleanArrElem]

/-- Witness for C7 as amended: the array `[1]` at the top level raises,
the scalar `"x"` passes through unchanged as a dict value and as an array
element. -/
theorem claim_C7_amended_witness :
    isDict (Json.arr [Json.num 1]) = false ∧
    cleanTop (Json.arr [Json.num 1]) = Except.error "AttributeError" ∧
    isScalar (Json.str "x") = true ∧
    cleanDictVal (Json.str "x") = Json.str "x" ∧
    isDict (Json.str "x") = false ∧
    cleanArrElem (Json.str "x") = Json.str "x" :=
  ⟨rfl, claim_C7_amended_top_level_must_be_dict.1 (Json.arr [Json.num 1]) rfl, rfl,
   claim_C7_amended_top_level_must_be_dict.2.1 (Json.str "x") rfl, rfl,
   claim_C7_amended_top_level_must_be_dict.2.2.1 (Json.str "x") rfl⟩

/-- C8 counterexample: when the followup reply has a non-empty parts list
with no text part, the parts guard of client.py line 167 succeeds and the
join over the (absent) text parts returns the empty string — not the
fallback string the claim requires for a reply without text content (whose
source spelling is also "No discernable text response after tool
execution.", not "no discernible text after tool execution"). -/
theorem claim_C8_counterexample :
    (processQuery wEnvFnFollowup "What time is it?").1 = Except.ok "" ∧
    "" ≠ "no discernible text after tool execution" ∧
    "" ≠ "No discernable text response after tool execution." :=
  ⟨rfl, by decide, by decide⟩

/-- C8 as amended: for every query that reaches the followup stage, if
the followup reply's parts list is non-empty the output is the
concatenation of its text parts in order — which is the empty string when
none of the parts is text — and only when the parts list is empty is the
output the fixed fallback string "No discernable text response after tool
execution.". -/
theorem claim_C8_amended_followup_output (env : Env) (q : String)
    (h : (firstCalls env q).isEmpty = false)
    (hc : (firstCalls env q).all
      (fun fc => !(env.callTool fc.name fc.args).content.isEmpty) = true) :
    (processQuery env q).1 =
      Except.ok (if (env.generate (followupContents env q)).isEmpty
        then "No discernable text response after tool execution."
        else joinTexts (env.generate (followupContents env q))) := by
  rw [processQuery_tool env q (isEmpty_false_ne_nil h) (all_content_ne env _ hc)]

/-- Witness for C8 as amended at `wEnvTools`, whose followup reply has a
text part. -/
theorem claim_C8_amended_witness :
    (firstCalls wEnvTools "What is the time?").isEmpty = false ∧
    (firstCalls wEnvTools "What is the time?").all
      (fun fc => !(wEnvTools.callTool fc.name fc.args).content.isEmpty) = true ∧
    (processQuery wEnvTools "What is the time?").1 =
      Except.ok (if (wEnvTools.generate (followupContents wEnvTools "What is the time?")).isEmpty
        then "No discernable text response after tool execution."
        else joinTexts (wEnvTools.generate (followupContents wEnvTools "What is the time?"))) :=
  ⟨rfl, rfl, claim_C8_amended_followup_output wEnvTools "What is the time?" rfl rfl⟩

/-- C9 counterexample: `main` has no try/finally, so when one of the demo
queries raises (here the second), `cleanup()` — the only place the exit
stack, transport and server process are released — is never executed:
`close` is not run on this exit path. -/
theorem claim_C9_counterexample :
    MainEvent.cleanupEv ∉
      (mainRun false (fun q => q == "What is 123 * 45 + 9?")).2 := by
  decide

/-- C9 as amended: `cleanup` (the release of the session's transport and
process resources) runs exactly when `connect_to_server` and every
`process_query` of the demo loop completed without raising; any raise
from connect, tool listing, tool invocation or a model call inside a
query skips it. -/
theorem claim_C9_amended_cleanup_only_on_success (connectFails : Bool)
    (fails : String → Bool) :
    MainEvent.cleanupEv ∈ (mainRun connectFails fails).2 ↔
      (connectFails = false ∧ ∀ q ∈ demoQueries, fails q = false) := by
  cases connectFails with
  | true => simp [mainRun]
  | false =>
    by_cases hall : ∀ q ∈ demoQueries, fails q = false
    · rw [mainRun]
      simp only [Bool.false_eq_true, if_false]
      rw [runQueries_ok fails demoQueries _ hall]
      constructor
      · exact fun _ => ⟨by simp, hall⟩
      · exact fun _ => by simp
    · rcases hrq : runQueries fails demoQueries [MainEvent.connectEv] with ⟨b, evs⟩
      have hb : b = false := by
        have hfst := runQueries_fail fails demoQueries [MainEvent.connectEv] hall
        rw [hrq] at hfst
        exact hfst
      subst hb
      have hnc : MainEvent.cleanupEv ∉ evs := by
        have hmem := runQueries_no_cleanup fails demoQueries [MainEvent.connectEv] (by simp)
        rw [hrq] at hmem
        exact hmem
      simp [mainRun, hrq, hnc, hall]

/-- C10: the `calculate` tool never raises to its caller — whatever the
evaluation of the expression does (including failing for any reason, which
the bare `except Exception` folds into text), the returned value is a
string of one of the two fixed shapes. -/
theorem claim_C10_calculate_total (evalExpr : String → Except String String)
    (expression : String) :
    (∃ v, calculate evalExpr expression = "The result is: " ++ v) ∨
    (∃ m, calculate evalExpr expression = "Error evaluating expression: " ++ m) := by
  cases h : evalExpr expression with
  | ok v => exact Or.inl ⟨v, by simp [calculate, h]⟩
  | error e => exact Or.inr ⟨e, by simp [calculate, h]⟩
